import Mathlib

/-!
Verification of the update-coordination core of the `yahoofinance` Home
Assistant component (`custom_components/yahoofinance/__init__.py`).

The Python code is shallowly embedded: parsed JSON documents become the
inductive type `Json` (Python `None` is `Json.null`; JSON numbers are
modelled as rationals, which is faithful here because the coordinator never
performs arithmetic on them, it only copies values); Python dicts become
association lists; exceptions become `Except` with the error type
`UpdateErr`; the coordinator object becomes the state record `CoordState`
with explicit state passing.  The scheduler capability
(`event.async_call_later` / cancellation handles) is modelled by a list of
live timers carried in the state together with a fresh-id counter.
-/

set_option autoImplicit false

namespace YahooFinance

/-- A parsed JSON document / Python object as handled by the coordinator.
Python `None` is `null`; numbers are rationals (no arithmetic is ever done
on them by the embedded code, they are only copied). -/
inductive Json where
  | null : Json
  | bool (b : Bool) : Json
  | num (q : ℚ) : Json
  | str (s : String) : Json
  | arr (elems : List Json) : Json
  | obj (fields : List (String × Json)) : Json
  deriving Repr

mutual

/-- Decidable equality for `Json` (the nested inductive prevents deriving). -/
def Json.decEq : (a b : Json) → Decidable (a = b)
  | .null, .null => .isTrue rfl
  | .bool a, .bool b =>
      if h : a = b then .isTrue (h ▸ rfl)
      else .isFalse (fun heq => h (Json.bool.inj heq))
  | .num a, .num b =>
      if h : a = b then .isTrue (h ▸ rfl)
      else .isFalse (fun heq => h (Json.num.inj heq))
  | .str a, .str b =>
      if h : a = b then .isTrue (h ▸ rfl)
      else .isFalse (fun heq => h (Json.str.inj heq))
  | .arr xs, .arr ys =>
      match Json.decEqList xs ys with
      | .isTrue h => .isTrue (h ▸ rfl)
      | .isFalse h => .isFalse (fun heq => h (Json.arr.inj heq))
  | .obj xs, .obj ys =>
      match Json.decEqFields xs ys with
      | .isTrue h => .isTrue (h ▸ rfl)
      | .isFalse h => .isFalse (fun heq => h (Json.obj.inj heq))
  | .null, .bool _ | .null, .num _ | .null, .str _ | .null, .arr _ | .null, .obj _
  | .bool _, .null | .bool _, .num _ | .bool _, .str _ | .bool _, .arr _ | .bool _, .obj _
  | .num _, .null | .num _, .bool _ | .num _, .str _ | .num _, .arr _ | .num _, .obj _
  | .str _, .null | .str _, .bool _ | .str _, .num _ | .str _, .arr _ | .str _, .obj _
  | .arr _, .null | .arr _, .bool _ | .arr _, .num _ | .arr _, .str _ | .arr _, .obj _
  | .obj _, .null | .obj _, .bool _ | .obj _, .num _ | .obj _, .str _ | .obj _, .arr _ =>
      .isFalse (by intro h; exact Json.noConfusion h)

/-- Decidable equality for lists of `Json`. -/
def Json.decEqList : (xs ys : List Json) → Decidable (xs = ys)
  | [], [] => .isTrue rfl
  | [], _ :: _ => .isFalse (by intro h; exact List.noConfusion h)
  | _ :: _, [] => .isFalse (by intro h; exact List.noConfusion h)
  | x :: xs, y :: ys =>
      match Json.decEq x y with
      | .isFalse h => .isFalse (fun heq => h (List.cons.inj heq).1)
      | .isTrue h1 =>
          match Json.decEqList xs ys with
          | .isTrue h2 => .isTrue (h1 ▸ h2 ▸ rfl)
          | .isFalse h2 => .isFalse (fun heq => h2 (List.cons.inj heq).2)

/-- Decidable equality for `Json` object field lists. -/
def Json.decEqFields : (xs ys : List (String × Json)) → Decidable (xs = ys)
  | [], [] => .isTrue rfl
  | [], _ :: _ => .isFalse (by intro h; exact List.noConfusion h)
  | _ :: _, [] => .isFalse (by intro h; exact List.noConfusion h)
  | (k, v) :: xs, (k', v') :: ys =>
      if hk : k = k' then
          match Json.decEq v v' with
          | .isFalse h =>
              .isFalse (fun heq => h (congrArg Prod.snd (List.cons.inj heq).1))
          | .isTrue hv =>
              match Json.decEqFields xs ys with
              | .isTrue h2 => .isTrue (hk ▸ hv ▸ h2 ▸ rfl)
              | .isFalse h2 => .isFalse (fun heq => h2 (List.cons.inj heq).2)
      else .isFalse (fun heq => hk (congrArg Prod.fst (List.cons.inj heq).1))

end

instance : DecidableEq Json := Json.decEq

/-- First-match key lookup in an association list, the model of reading a
Python dict (dict literals parsed from JSON have unique keys, so
first-match agrees with dict semantics). -/
def lookupKey {κ : Type} [DecidableEq κ] {α : Type} (fields : List (κ × α)) (k : κ) : Option α :=
  match fields with
  | [] => none
  | (k', v) :: rest => if k' = k then some v else lookupKey rest k

/-- Python dict assignment `d[k] = v`: replace in place when the key is
present, otherwise append. -/
def dictInsert {κ : Type} [DecidableEq κ] {α : Type}
    (d : List (κ × α)) (k : κ) (v : α) : List (κ × α) :=
  match d with
  | [] => [(k, v)]
  | (k', v') :: rest =>
      if k' = k then (k', v) :: rest else (k', v') :: dictInsert rest k v

/-- Modelled from the spec: `NUMERIC_DATA_KEYS` lives in
`custom_components/yahoofinance/const.py`, which is not part of the
provided sources.  The spec describes it as the numeric half of a closed,
versioned enumeration of quote field names (price, previous close, day
range bounds, averages, dividend timestamp, ...), each entry a tuple whose
first component is the field name (the code reads `value[0]`). -/
def NUMERIC_DATA_KEYS : List (String × Bool) :=
  [ ("regularMarketChange", true)
  , ("regularMarketChangePercent", true)
  , ("regularMarketDayHigh", true)
  , ("regularMarketDayLow", true)
  , ("regularMarketPreviousClose", true)
  , ("regularMarketPrice", true)
  , ("fiftyDayAverage", true)
  , ("fiftyDayAverageChange", true)
  , ("fiftyDayAverageChangePercent", true)
  , ("twoHundredDayAverage", true)
  , ("twoHundredDayAverageChange", true)
  , ("twoHundredDayAverageChangePercent", true)
  , ("dividendDate", false) ]

/-- Modelled from the spec: `STRING_DATA_KEYS` from `const.py` (not in the
provided sources), the string-typed half of the closed field enumeration
(currency code, display name). -/
def STRING_DATA_KEYS : List String := ["currency", "shortName"]

/-- Modelled from the spec: `DATA_REGULAR_MARKET_PRICE` from `const.py`. -/
def DATA_REGULAR_MARKET_PRICE : String := "regularMarketPrice"

/-- Constant `WEBSESSION_TIMEOUT = 15` (line 39): the bounded fetch
timeout in seconds. -/
def WEBSESSION_TIMEOUT : Nat := 15

/-- Constant `DELAY_ASYNC_REQUEST_REFRESH = 5` (line 40): the warm-up
delay after adding a new symbol, in seconds. -/
def DELAY_ASYNC_REQUEST_REFRESH : Nat := 5

/-- Constant `FAILURE_ASYNC_REQUEST_REFRESH = 20` (line 41): the retry
delay after a failed refresh attempt, in seconds. -/
def FAILURE_ASYNC_REQUEST_REFRESH : Nat := 20

/-- Static method `YahooSymbolUpdateCoordinator.parse_symbol_data` (lines 167-180):
builds a per-symbol record by reading every numeric schema key with
`symbol_data.get(key, 0)` and every string schema key with
`symbol_data.get(key)` (default `None`).  The Python dict is built by
inserting the numeric keys in order and then the string keys, which for
the disjoint schema lists is the concatenation below. -/
def parse_symbol_data (symbol_data : List (String × Json)) : List (String × Json) :=
  (NUMERIC_DATA_KEYS.map (fun value =>
      (value.1, (lookupKey symbol_data value.1).getD (Json.num 0))))
    ++ (STRING_DATA_KEYS.map (fun key =>
      (key, (lookupKey symbol_data key).getD Json.null)))

/-- The exceptions the embedded code can raise.  `updateFailed` is
`UpdateFailed(msg)`; its payload is a `Json` value because line 267 raises
`UpdateFailed(quoteResponse["error"])` with an arbitrary payload while the
other sites pass string literals.  `keyError k` is Python `KeyError` from
subscripting a dict that lacks key `k` (line 278 `symbol_data["symbol"]`).
`typeError` stands for Python `TypeError` from applying `in`, subscription
or iteration to a value of the wrong type.  `transportError` stands for the
exceptions the fetch itself can raise (timeout, connection error). -/
inductive UpdateErr where
  | updateFailed (msg : Json) : UpdateErr
  | keyError (key : String) : UpdateErr
  | typeError : UpdateErr
  | transportError (msg : String) : UpdateErr
  deriving Repr, DecidableEq

/-- Python `k in j` for a string `k`: key membership for dicts, element
membership for lists, substring test for strings, `TypeError` otherwise. -/
def pyIn (k : String) (j : Json) : Except UpdateErr Bool :=
  match j with
  | .obj fields => .ok (fields.any (fun p => p.1 = k))
  | .arr elems => .ok (elems.any (fun e => e = .str k))
  | .str s => .ok (((s.splitOn k).length > 1) || k.isEmpty)
  | _ => .error .typeError

/-- Python `j[k]` for a string `k`: dict lookup (`KeyError` when absent),
`TypeError` on any non-dict. -/
def pySubscript (j : Json) (k : String) : Except UpdateErr Json :=
  match j with
  | .obj fields =>
      match lookupKey fields k with
      | some v => .ok v
      | none => .error (.keyError k)
  | _ => .error .typeError

/-- A Snapshot: the dict built by `_async_update`, mapping each element's
`symbol` value (an arbitrary Json value used as dict key) to the record
built by `parse_symbol_data`. -/
abbrev Snapshot := List (Json × List (String × Json))

/-- The loop of `_async_update` (lines 276-286): `for symbol_data in
result: symbol = symbol_data["symbol"]; data[symbol] =
self.parse_symbol_data(symbol_data)`.  A non-dict element makes
`symbol_data["symbol"]` raise `TypeError`; a dict element without a
`symbol` key raises `KeyError`. -/
def buildData : List Json → Snapshot → Except UpdateErr Snapshot
  | [], acc => .ok acc
  | .obj fields :: rest, acc =>
      match lookupKey fields "symbol" with
      | none => .error (.keyError "symbol")
      | some sym => buildData rest (dictInsert acc sym (parse_symbol_data fields))
  | _ :: _, _ => .error .typeError

/-- The `result` checks of `_async_update` (lines 269-274): `result` must
be a key of `quoteResponse` and its value must not be `None`; on success
the `result` value is returned for iteration.  Messages keep the source's
exact text. -/
def checkResultPart (quoteResponse : Json) : Except UpdateErr Json :=
  match pyIn "result" quoteResponse with
  | .error e => .error e
  | .ok hasResult =>
      if !hasResult then
        .error (.updateFailed (.str "Data invalid, no \x27result\x27 found"))
      else
        match pySubscript quoteResponse "result" with
        | .error e => .error e
        | .ok result =>
            if result = Json.null then
              .error (.updateFailed (.str "Data invalid, \x27result\x27 is None"))
            else .ok result

/-- The embedded-error check of `_async_update` (lines 265-267): when
`quoteResponse` carries an `error` key with a non-null value, raise
`UpdateFailed(quoteResponse["error"])`; otherwise continue with the
`result` checks. -/
def checkErrorPart (quoteResponse : Json) : Except UpdateErr Json :=
  match pyIn "error" quoteResponse with
  | .error e => .error e
  | .ok hasErr =>
      if hasErr then
        match pySubscript quoteResponse "error" with
        | .error e => .error e
        | .ok err =>
            if err ≠ Json.null then .error (.updateFailed err)
            else checkResultPart quoteResponse
      else checkResultPart quoteResponse

/-- The validation prefix of `_async_update` (lines 255-274): check the
payload is present and contains `quoteResponse`, then run the
embedded-error and `result` checks; return the `result` value.  Each
raise site keeps the source's exact message. -/
def validate (json : Option Json) : Except UpdateErr Json :=
  match json with
  | none => .error (.updateFailed (.str "No data received"))
  | some j =>
      match pyIn "quoteResponse" j with
      | .error e => .error e
      | .ok hasQR =>
          if !hasQR then
            .error (.updateFailed (.str "Data invalid, \x27quoteResponse\x27 not found."))
          else
            match pySubscript j "quoteResponse" with
            | .error e => .error e
            | .ok quoteResponse => checkErrorPart quoteResponse

/-- Python `for symbol_data in result` over the validated `result` value:
lists iterate their elements; an empty dict or empty string iterates zero
times (so the loop succeeds with an empty snapshot); a non-empty dict or
string yields non-dict elements (its keys / its characters), on which the
loop body's subscription raises `TypeError`; other values are not iterable
at all (`TypeError`). -/
def iterateResult (result : Json) : Except UpdateErr Snapshot :=
  match result with
  | .arr elems => buildData elems []
  | .obj fields => if fields.isEmpty then .ok [] else .error .typeError
  | .str s => if s.isEmpty then .ok [] else .error .typeError
  | _ => .error .typeError

/-- Method `YahooSymbolUpdateCoordinator._async_update` (lines 247-288), with the
outcome of `self.get_json()` passed in as `fetch` (`.error e` when the
fetch raised, `.ok none` when it returned `None`, `.ok (some j)` for a
parsed document `j`): validate the payload shape and fold the result list
into a Snapshot. -/
def asyncUpdate (fetch : Except UpdateErr (Option Json)) : Except UpdateErr Snapshot :=
  match fetch with
  | .error e => .error e
  | .ok json =>
      match validate json with
      | .error e => .error e
      | .ok result => iterateResult result

/-- A live one-shot timer armed through `event.async_call_later`: its
handle id and the requested delay in seconds.  Every timer armed by this
coordinator carries the same callback, `async_request_refresh_later`,
whose firing issues a (debounced) refresh request, so the callback is not
part of the record. -/
structure Timer where
  id : Nat
  delay : Nat
  deriving Repr, DecidableEq

/-- The mutable state of a `YahooSymbolUpdateCoordinator` (lines 182-196)
together with the state of the external scheduler capability: `timers` is
the list of live (armed, not yet fired or cancelled) one-shot timers this
coordinator created, `nextId` a fresh-id counter for new timer handles,
`refreshRemover` the handle stored in `self._refresh_remover` (`none`
models Python `None`). -/
structure CoordState where
  symbols : List String
  data : Option Snapshot
  lastUpdateSuccess : Bool
  timers : List Timer
  refreshRemover : Option Nat
  nextId : Nat
  deriving Repr, DecidableEq

/-- Method `get_symbols` (lines 198-200): return the tracked symbol list. -/
def get_symbols (st : CoordState) : List String := st.symbols

/-- Method `_add_refresh_later` (lines 206-214): if `self._refresh_remover` holds
a cancellation handle, invoke it (removing that timer from the scheduler)
and clear the field; then arm a fresh one-shot timer for `duration`
seconds and store its handle. -/
def addRefreshLater (st : CoordState) (duration : Nat) : CoordState :=
  let st1 :=
    match st.refreshRemover with
    | some h =>
        { st with timers := st.timers.filter (fun t => t.id ≠ h), refreshRemover := none }
    | none => st
  { st1 with
      timers := st1.timers ++ [⟨st1.nextId, duration⟩]
      refreshRemover := some st1.nextId
      nextId := st1.nextId + 1 }

/-- Method `add_symbol` (lines 216-234): when `symbol` is not an element of
`self._symbols` (plain membership, no case normalization), append it, arm
a refresh for `DELAY_ASYNC_REQUEST_REFRESH` seconds and return `True`;
otherwise return `False` without touching anything.  No fetch happens
here: the function only mutates the state, as its signature shows. -/
def add_symbol (st : CoordState) (symbol : String) : Bool × CoordState :=
  if symbol ∉ st.symbols then
    let st1 := { st with symbols := st.symbols ++ [symbol] }
    (true, addRefreshLater st1 DELAY_ASYNC_REQUEST_REFRESH)
  else
    (false, st)

/-- Method `_async_update_with_retry` (lines 290-301): run `_async_update`; a
bare `except:` catches every exception, arms a retry for
`FAILURE_ASYNC_REQUEST_REFRESH` seconds and re-raises the same exception
(`raise`). -/
def asyncUpdateWithRetry (st : CoordState) (fetch : Except UpdateErr (Option Json)) :
    Except UpdateErr Snapshot × CoordState :=
  match asyncUpdate fetch with
  | .ok d => (.ok d, st)
  | .error e => (.error e, addRefreshLater st FAILURE_ASYNC_REQUEST_REFRESH)

/-- Modelled from the spec: the framework wrapper
(`DataUpdateCoordinator.async_refresh`, outside this repository) that
invokes the coordinator's `update_method` (`_async_update_with_retry`) and
does the bookkeeping the spec describes: on success it replaces the stored
Snapshot wholesale and sets `last_update_success` true; on failure it sets
`last_update_success` false and leaves the previously stored data
untouched, so consumers keep serving the last-known-good Snapshot. -/
def asyncRefresh (st : CoordState) (fetch : Except UpdateErr (Option Json)) : CoordState :=
  match asyncUpdateWithRetry st fetch with
  | (.ok d, st1) => { st1 with data := some d, lastUpdateSuccess := true }
  | (.error _, st1) => { st1 with lastUpdateSuccess := false }

/-- A configured symbol entry after schema validation (line 59-62): either
a bare string or a `{"symbol": ..., "target_currency": ...}` mapping.  The
`complex` form keeps the optional target currency so that
`normalized_symbols` keeps the whole value as the source does. -/
inductive ConfValue where
  | basic (s : String) : ConfValue
  | complex (symbol : String) (targetCurrency : Option String) : ConfValue
  deriving Repr, DecidableEq

/-- The symbol identifier of a configured entry (`value` itself for a
string entry, `value["symbol"]` otherwise). -/
def ConfValue.symbolOf : ConfValue → String
  | .basic s => s
  | .complex s _ => s

/-- The loop of `normalize_input` (lines 102-110), accumulating the set
`symbols` (represented by the list of its elements in insertion order;
`value in symbols` is membership, `symbols.add` appends) and the list
`normalized_symbols` (a bare string `value` is wrapped as
`{"symbol": value}`). -/
def normalizeLoop : List ConfValue → List String → List ConfValue →
    List String × List ConfValue
  | [], symbols, normalized => (symbols, normalized)
  | v :: rest, symbols, normalized =>
      match v with
      | .basic s =>
          if s ∈ symbols then normalizeLoop rest symbols normalized
          else normalizeLoop rest (symbols ++ [s]) (normalized ++ [.complex s none])
      | .complex s tc =>
          if s ∈ symbols then normalizeLoop rest symbols normalized
          else normalizeLoop rest (symbols ++ [s]) (normalized ++ [.complex s tc])

/-- Function `normalize_input` (lines 97-112).  The function returns
`(list(symbols), normalized_symbols)` where `symbols` is a Python `set`:
the order in which `list()` enumerates a set is implementation-defined
(hash-table order, randomized per process by `PYTHONHASHSEED`), so the
enumeration is a parameter `setOrder`; any function producing a
permutation of the set's elements is an admissible instantiation. -/
def normalize_input (setOrder : List String → List String)
    (defined_symbols : List ConfValue) : List String × List ConfValue :=
  let r := normalizeLoop defined_symbols [] []
  (setOrder r.1, r.2)

/-! Spec-side predicates.  The five payload-shape violations below follow
the spec's words ("must be non-absent; must contain a top-level result
container; that container must not itself carry a non-null embedded error;
it must contain a non-null result list"), stated structurally over the
payload so they can be compared with what the embedded code does. -/

/-- Spec violation "no data": the payload is absent. -/
def specNoData (p : Option Json) : Bool := p.isNone

/-- Spec violation "missing container": the payload object lacks the
top-level `quoteResponse` key. -/
def specMissingContainer (p : Option Json) : Bool :=
  match p with
  | some (.obj fields) => (lookupKey fields "quoteResponse").isNone
  | _ => false

/-- Spec violation "embedded error present": the container carries an
`error` key with a non-null value. -/
def specEmbeddedError (p : Option Json) : Bool :=
  match p with
  | some (.obj fields) =>
      match lookupKey fields "quoteResponse" with
      | some (.obj qf) =>
          match lookupKey qf "error" with
          | some e => e ≠ Json.null
          | none => false
      | _ => false
  | _ => false

/-- Spec violation "missing result list": the container lacks a `result`
key. -/
def specMissingResult (p : Option Json) : Bool :=
  match p with
  | some (.obj fields) =>
      match lookupKey fields "quoteResponse" with
      | some (.obj qf) => (lookupKey qf "result").isNone
      | _ => false
  | _ => false

/-- Spec violation "null result list": the container's `result` value is
null. -/
def specNullResult (p : Option Json) : Bool :=
  match p with
  | some (.obj fields) =>
      match lookupKey fields "quoteResponse" with
      | some (.obj qf) => lookupKey qf "result" = some Json.null
      | _ => false
  | _ => false

/-- The disjunction of the five payload-shape violations of the spec. -/
def specViolation (p : Option Json) : Bool :=
  specNoData p || specMissingContainer p || specEmbeddedError p ||
    specMissingResult p || specNullResult p

/-- A payload is well-typed when the values the validation code examines
have the expected types: the payload, when present, is a JSON object, and
its `quoteResponse` value, when present, is a JSON object too (on other
payloads Python raises `TypeError` from `in` or subscription instead of
following the five diagnostic paths). -/
def wellTypedPayload (p : Option Json) : Bool :=
  match p with
  | none => true
  | some (.obj fields) =>
      match lookupKey fields "quoteResponse" with
      | none => true
      | some (.obj _) => true
      | some _ => false
  | some _ => false

/-- The embedded-error payload of the spec's testable property:
`{"quoteResponse":{"error":"rate limited","result":null}}`. -/
def payloadRateLimited : Option Json :=
  some (.obj [("quoteResponse", .obj
    [("error", .str "rate limited"), ("result", .null)])])

/-- The well-formed payload of the spec's testable property:
`{"quoteResponse":{"error":null,"result":[{"symbol":"BABA",
"regularMarketPrice":232.73,"regularMarketChange":-5.66,
"twoHundredDayAverageChangePercent":-0.1261}]}}`. -/
def payloadBABA : Option Json :=
  some (.obj [("quoteResponse", .obj
    [ ("error", .null)
    , ("result", .arr [ .obj
        [ ("symbol", .str "BABA")
        , ("regularMarketPrice", .num (232.73 : ℚ))
        , ("regularMarketChange", .num (-5.66 : ℚ))
        , ("twoHundredDayAverageChangePercent", .num (-0.1261 : ℚ)) ] ]) ])])

/-- A payload that passes every validation check but whose result-list
element lacks the `symbol` key, so that line 278 `symbol_data["symbol"]`
raises `KeyError`. -/
def payloadNoSymbolKey : Option Json :=
  some (.obj [("quoteResponse", .obj
    [("result", .arr [.obj [("regularMarketPrice", .num 1)]])])])

/-- The at-most-one-outstanding-timer invariant: the coordinator has at
most one live timer, `self._refresh_remover` holds the handle of any live
timer, and all issued handles are below the fresh-id counter. -/
def TimerInv (st : CoordState) : Prop :=
  st.timers.length ≤ 1
  ∧ (∀ t ∈ st.timers, st.refreshRemover = some t.id)
  ∧ (∀ t ∈ st.timers, t.id < st.nextId)
  ∧ (∀ h, st.refreshRemover = some h → h < st.nextId)

/-! Helper lemmas. -/

theorem lookupKey_append {κ α : Type} [DecidableEq κ]
    (l1 l2 : List (κ × α)) (k : κ) :
    lookupKey (l1 ++ l2) k =
      match lookupKey l1 k with
      | some v => some v
      | none => lookupKey l2 k := by
  induction l1 with
  | nil => simp [lookupKey]
  | cons p rest ih =>
      obtain ⟨k', v⟩ := p
      by_cases h : k' = k <;> simp [lookupKey, h, ih]

theorem lookupKey_map_self (ks : List String) (h : String → Json) (k : String) :
    lookupKey (ks.map (fun s => (s, h s))) k =
      if k ∈ ks then some (h k) else none := by
  induction ks with
  | nil => simp [lookupKey]
  | cons s rest ih =>
      by_cases hs : s = k
      · subst hs; simp [lookupKey]
      · simp [lookupKey, hs, ih, Ne.symm hs]

theorem any_key_eq_isSome {α : Type} (fields : List (String × α)) (k : String) :
    (fields.any (fun p => p.1 = k)) = (lookupKey fields k).isSome := by
  induction fields with
  | nil => simp [lookupKey]
  | cons p rest ih =>
      obtain ⟨k', v⟩ := p
      by_cases h : k' = k <;> simp [lookupKey, h, ih]

/-- Under the timer invariant, arming a refresh leaves exactly the newly
armed timer live (any previously armed timer is cancelled first), stores
its handle, bumps the id counter and touches nothing else. -/
theorem addRefreshLater_spec (st : CoordState) (d : Nat) (hinv : TimerInv st) :
    (addRefreshLater st d).timers = [⟨st.nextId, d⟩]
    ∧ (addRefreshLater st d).refreshRemover = some st.nextId
    ∧ (addRefreshLater st d).nextId = st.nextId + 1
    ∧ (addRefreshLater st d).symbols = st.symbols
    ∧ (addRefreshLater st d).data = st.data
    ∧ (addRefreshLater st d).lastUpdateSuccess = st.lastUpdateSuccess := by
  obtain ⟨hlen, hmatch, hlt, hrem⟩ := hinv
  unfold addRefreshLater
  cases hr : st.refreshRemover with
  | none =>
      have hnil : st.timers = [] := by
        cases ht : st.timers with
        | nil => rfl
        | cons t rest =>
            have := hmatch t (by simp [ht])
            simp [hr] at this
      simp [hnil]
  | some h =>
      have hfilter : st.timers.filter (fun t => t.id ≠ h) = [] := by
        apply List.filter_eq_nil_iff.mpr
        intro t ht
        have := hmatch t ht
        rw [hr] at this
        simp [Option.some.inj this]
      dsimp only
      rw [hfilter]
      simp

/-- Unconditional field-level description of `_add_refresh_later`: it
never touches symbols, data or the success flag; it always stores the
fresh handle and the newly armed timer. -/
theorem addRefreshLater_fields (st : CoordState) (d : Nat) :
    (addRefreshLater st d).data = st.data
    ∧ (addRefreshLater st d).lastUpdateSuccess = st.lastUpdateSuccess
    ∧ (addRefreshLater st d).symbols = st.symbols
    ∧ (addRefreshLater st d).refreshRemover = some st.nextId
    ∧ (addRefreshLater st d).nextId = st.nextId + 1
    ∧ Timer.mk st.nextId d ∈ (addRefreshLater st d).timers := by
  unfold addRefreshLater
  cases st.refreshRemover <;> simp

theorem addRefreshLater_inv (st : CoordState) (d : Nat) (hinv : TimerInv st) :
    TimerInv (addRefreshLater st d) := by
  obtain ⟨ht, hr, hn, _, _, _⟩ := addRefreshLater_spec st d hinv
  refine ⟨by simp [ht], ?_, ?_, ?_⟩
  · intro t hmem; rw [ht] at hmem; simp at hmem; simp [hr, hmem]
  · intro t hmem; rw [ht] at hmem; simp at hmem; simp [hn, hmem]
  · intro h hh; rw [hr] at hh; simp [hn, ← Option.some.inj hh]

/-- When the symbol is already present (exact string match), `add_symbol`
returns false and changes nothing. -/
theorem add_symbol_mem (st : CoordState) (s : String) (hmem : s ∈ st.symbols) :
    add_symbol st s = (false, st) := by
  unfold add_symbol
  rw [if_neg (by simp [hmem])]

/-- When the symbol is absent, `add_symbol` appends it and arms the
warm-up refresh. -/
theorem add_symbol_new (st : CoordState) (s : String) (hnew : s ∉ st.symbols) :
    add_symbol st s
      = (true, addRefreshLater { st with symbols := st.symbols ++ [s] }
          DELAY_ASYNC_REQUEST_REFRESH) := by
  unfold add_symbol
  rw [if_pos hnew]

/-- C1: for every refresh attempt that fails (fetch raises, payload absent
or malformed, or validation fails — all captured by
`asyncUpdate fetch = .error e`), the coordinator arms a one-shot retry
timer for the fixed failure delay of 20 seconds, re-raises the triggering
failure to the caller rather than swallowing it, and leaves any
previously-held Snapshot unmodified, while `last_update_success` becomes
false. -/
theorem c1_failure_arms_retry_and_reraises
    (st : CoordState) (fetch : Except UpdateErr (Option Json)) (e : UpdateErr)
    (hfail : asyncUpdate fetch = .error e) :
    (asyncUpdateWithRetry st fetch).1 = .error e
    ∧ (asyncRefresh st fetch).data = st.data
    ∧ (asyncRefresh st fetch).lastUpdateSuccess = false
    ∧ (asyncRefresh st fetch).refreshRemover = some st.nextId
    ∧ Timer.mk st.nextId FAILURE_ASYNC_REQUEST_REFRESH ∈ (asyncRefresh st fetch).timers
    ∧ FAILURE_ASYNC_REQUEST_REFRESH = 20 := by
  obtain ⟨hd, _, _, hr, _, hm⟩ :=
    addRefreshLater_fields st FAILURE_ASYNC_REQUEST_REFRESH
  have h1 : asyncUpdateWithRetry st fetch
      = (.error e, addRefreshLater st FAILURE_ASYNC_REQUEST_REFRESH) := by
    unfold asyncUpdateWithRetry
    rw [hfail]
  have h2 : asyncRefresh st fetch
      = { addRefreshLater st FAILURE_ASYNC_REQUEST_REFRESH with lastUpdateSuccess := false } := by
    unfold asyncRefresh
    rw [h1]
  refine ⟨by rw [h1], ?_, ?_, ?_, ?_, rfl⟩
  · rw [h2]; exact hd
  · rw [h2]
  · rw [h2]; exact hr
  · rw [h2]; exact hm

/-- Witness for C1 at the spec's embedded-error payload
`{"quoteResponse":{"error":"rate limited","result":null}}` and a concrete
coordinator state. -/
theorem c1_witness :
    (asyncUpdateWithRetry ⟨["BABA"], none, true, [], none, 0⟩ (.ok payloadRateLimited)).1
        = .error (.updateFailed (.str "rate limited"))
    ∧ (asyncRefresh ⟨["BABA"], none, true, [], none, 0⟩ (.ok payloadRateLimited)).data = none
    ∧ (asyncRefresh ⟨["BABA"], none, true, [], none, 0⟩ (.ok payloadRateLimited)).lastUpdateSuccess
        = false :=
  ⟨(c1_failure_arms_retry_and_reraises ⟨["BABA"], none, true, [], none, 0⟩
      (.ok payloadRateLimited) (.updateFailed (.str "rate limited")) rfl).1,
   (c1_failure_arms_retry_and_reraises ⟨["BABA"], none, true, [], none, 0⟩
      (.ok payloadRateLimited) (.updateFailed (.str "rate limited")) rfl).2.1,
   (c1_failure_arms_retry_and_reraises ⟨["BABA"], none, true, [], none, 0⟩
      (.ok payloadRateLimited) (.updateFailed (.str "rate limited")) rfl).2.2.1⟩

/-- C10: every exception raised during the update — the uniform
`UpdateFailed` signal as well as unanticipated ones such as the `KeyError`
raised when a result-list element lacks a `symbol` key — is caught by the
retry wrapper, arms the failure-delay retry timer, and is re-raised
unchanged to the caller.  The closed third conjunct exhibits the missing
`symbol`-key `KeyError` itself. -/
theorem c10_retry_wrapper_catch_all
    (st : CoordState) (fetch : Except UpdateErr (Option Json)) (e : UpdateErr)
    (hfail : asyncUpdate fetch = .error e) :
    asyncUpdateWithRetry st fetch
        = (.error e, addRefreshLater st FAILURE_ASYNC_REQUEST_REFRESH)
    ∧ Timer.mk st.nextId FAILURE_ASYNC_REQUEST_REFRESH
        ∈ (asyncUpdateWithRetry st fetch).2.timers
    ∧ asyncUpdate (.ok payloadNoSymbolKey) = .error (.keyError "symbol") := by
  have h1 : asyncUpdateWithRetry st fetch
      = (.error e, addRefreshLater st FAILURE_ASYNC_REQUEST_REFRESH) := by
    unfold asyncUpdateWithRetry
    rw [hfail]
  refine ⟨h1, ?_, rfl⟩
  rw [h1]
  exact (addRefreshLater_fields st FAILURE_ASYNC_REQUEST_REFRESH).2.2.2.2.2

/-- Witness for C10 at the payload whose result-list element lacks a
`symbol` key: the `KeyError` is re-raised unchanged and the 20-second
retry is armed. -/
theorem c10_witness :
    asyncUpdateWithRetry ⟨["XYZ"], none, true, [], none, 5⟩ (.ok payloadNoSymbolKey)
        = (.error (.keyError "symbol"),
           addRefreshLater ⟨["XYZ"], none, true, [], none, 5⟩ FAILURE_ASYNC_REQUEST_REFRESH) :=
  (c10_retry_wrapper_catch_all ⟨["XYZ"], none, true, [], none, 5⟩
    (.ok payloadNoSymbolKey) (.keyError "symbol") rfl).1

/-- Counterexample to C2: a successful refresh does NOT cancel a pending
retry timer.  Starting from a state with a retry timer armed (handle 0,
delay 20), a successful refresh with the well-formed BABA payload replaces
the Snapshot and sets the success flag, yet the previously armed timer is
still live afterwards — the claim says it should have been cancelled. -/
theorem c2_counterexample :
    (asyncRefresh ⟨["BABA"], none, false, [⟨0, 20⟩], some 0, 1⟩ (.ok payloadBABA)).lastUpdateSuccess
        = true
    ∧ (asyncRefresh ⟨["BABA"], none, false, [⟨0, 20⟩], some 0, 1⟩ (.ok payloadBABA)).data.isSome
        = true
    ∧ (asyncRefresh ⟨["BABA"], none, false, [⟨0, 20⟩], some 0, 1⟩ (.ok payloadBABA)).timers
        = [⟨0, 20⟩] :=
  ⟨rfl, rfl, rfl⟩

/-- C2 as amended: for every refresh attempt that succeeds, the Snapshot
is replaced wholesale with the newly-built mapping and
`last_update_success` is set true; everything else — the tracked symbols
and, in particular, any pending retry timer — is left untouched (the
pending timer is NOT cancelled; its eventual firing only issues a
debounced refresh request). -/
theorem c2_success_replaces_snapshot
    (st : CoordState) (fetch : Except UpdateErr (Option Json)) (d : Snapshot)
    (hok : asyncUpdate fetch = .ok d) :
    asyncRefresh st fetch = { st with data := some d, lastUpdateSuccess := true } := by
  unfold asyncRefresh asyncUpdateWithRetry
  rw [hok]

/-- Witness for C2 (amended) at the BABA payload, starting from a state
with a retry timer armed: the snapshot is replaced, the flag set, and the
timer slot untouched. -/
theorem c2_witness :
    asyncRefresh ⟨["BABA"], none, false, [⟨0, 20⟩], some 0, 1⟩ (.ok payloadBABA)
      = ⟨["BABA"],
         some [(Json.str "BABA", parse_symbol_data
            [ ("symbol", .str "BABA")
            , ("regularMarketPrice", .num (232.73 : ℚ))
            , ("regularMarketChange", .num (-5.66 : ℚ))
            , ("twoHundredDayAverageChangePercent", .num (-0.1261 : ℚ)) ])],
         true, [⟨0, 20⟩], some 0, 1⟩ :=
  c2_success_replaces_snapshot _ _ _ rfl

/-- C5: the spec's concrete well-formed BABA payload makes a refresh
attempt succeed and produce a Snapshot in which
`data["BABA"]["regularMarketPrice"]` equals 232.73, with
`last_update_success` true. -/
theorem c5_baba_payload_success :
    (asyncRefresh ⟨["BABA"], none, true, [], none, 0⟩ (.ok payloadBABA)).lastUpdateSuccess = true
    ∧ ((asyncRefresh ⟨["BABA"], none, true, [], none, 0⟩ (.ok payloadBABA)).data.bind
          (fun d => lookupKey d (Json.str "BABA"))).bind
        (fun r => lookupKey r DATA_REGULAR_MARKET_PRICE) = some (.num (232.73 : ℚ)) :=
  ⟨rfl, rfl⟩

/-- Counterexample to C6: `add_symbol` does not case-normalize.  With
"BABA" already tracked, adding the differently-cased spelling "baba"
returns true and appends it, instead of returning false and leaving the
sequence unchanged, so `get_symbols()` then holds two spellings of the
same identifier. -/
theorem c6_counterexample :
    (add_symbol ⟨["BABA"], none, true, [], none, 0⟩ "baba").1 = true
    ∧ (add_symbol ⟨["BABA"], none, true, [], none, 0⟩ "baba").2.symbols = ["BABA", "baba"] :=
  ⟨rfl, rfl⟩

/-- C6 as amended: `add_symbol` performs no case normalization (upper
casing happens only in config-schema validation, before
`normalize_input`); re-adding the exact identifier already present
returns false and leaves the tracked sequence unchanged, and a
duplicate-free tracked sequence stays duplicate-free under `add_symbol`,
while a differently-cased spelling counts as a new symbol. -/
theorem c6_add_symbol_exact_duplicate_noop (st : CoordState) (s : String) :
    (s ∈ st.symbols → add_symbol st s = (false, st))
    ∧ (st.symbols.Nodup → ((add_symbol st s).2.symbols).Nodup) := by
  constructor
  · exact fun hmem => add_symbol_mem st s hmem
  · intro hnd
    by_cases hmem : s ∈ st.symbols
    · rw [add_symbol_mem st s hmem]
      exact hnd
    · have heq : (add_symbol st s).2.symbols = st.symbols ++ [s] := by
        rw [add_symbol_new st s hmem]
        exact (addRefreshLater_fields { st with symbols := st.symbols ++ [s] }
          DELAY_ASYNC_REQUEST_REFRESH).2.2.1
      rw [heq, List.nodup_append]
      exact ⟨hnd, List.nodup_singleton s,
        fun a ha hb => hmem ((List.mem_singleton.mp hb) ▸ ha)⟩

/-- Witness for C6 (amended): re-adding the exact string "BABA" is a
no-op returning false, and the sequence keeps exactly one copy. -/
theorem c6_witness :
    add_symbol ⟨["BABA"], none, true, [], none, 0⟩ "BABA"
        = (false, ⟨["BABA"], none, true, [], none, 0⟩)
    ∧ ((add_symbol ⟨["BABA"], none, true, [], none, 0⟩ "BABA").2.symbols).Nodup :=
  ⟨(c6_add_symbol_exact_duplicate_noop ⟨["BABA"], none, true, [], none, 0⟩ "BABA").1
      (by simp),
   (c6_add_symbol_exact_duplicate_noop ⟨["BABA"], none, true, [], none, 0⟩ "BABA").2
      (by simp)⟩

/-- C8: for every symbol not yet tracked, `add_symbol` appends it to the
registry, returns true, and arms a one-shot warm-up timer for the short
delay of 5 seconds (a distinct constant from the 20-second failure
delay), whose firing requests a refresh; it performs no fetch — the
Snapshot and success flag are untouched and the function's state
transition involves no network input at all. -/
theorem c8_add_new_symbol_arms_warmup (st : CoordState) (s : String)
    (hnew : s ∉ st.symbols) :
    (add_symbol st s).1 = true
    ∧ (add_symbol st s).2.symbols = st.symbols ++ [s]
    ∧ (add_symbol st s).2.refreshRemover = some st.nextId
    ∧ Timer.mk st.nextId DELAY_ASYNC_REQUEST_REFRESH ∈ (add_symbol st s).2.timers
    ∧ (add_symbol st s).2.data = st.data
    ∧ (add_symbol st s).2.lastUpdateSuccess = st.lastUpdateSuccess
    ∧ DELAY_ASYNC_REQUEST_REFRESH = 5
    ∧ FAILURE_ASYNC_REQUEST_REFRESH = 20
    ∧ DELAY_ASYNC_REQUEST_REFRESH ≠ FAILURE_ASYNC_REQUEST_REFRESH := by
  have hadd := add_symbol_new st s hnew
  obtain ⟨hd, hl, hs, hr, _, hm⟩ :=
    addRefreshLater_fields { st with symbols := st.symbols ++ [s] }
      DELAY_ASYNC_REQUEST_REFRESH
  rw [hadd]
  exact ⟨rfl, hs, hr, hm, hd, hl, rfl, rfl, by decide⟩

/-- Witness for C8: adding the fresh symbol "MSFT" to a coordinator that
tracks only "BABA". -/
theorem c8_witness :
    (add_symbol ⟨["BABA"], none, true, [], none, 0⟩ "MSFT").1 = true
    ∧ (add_symbol ⟨["BABA"], none, true, [], none, 0⟩ "MSFT").2.symbols = ["BABA", "MSFT"]
    ∧ (add_symbol ⟨["BABA"], none, true, [], none, 0⟩ "MSFT").2.refreshRemover = some 0
    ∧ Timer.mk 0 DELAY_ASYNC_REQUEST_REFRESH
        ∈ (add_symbol ⟨["BABA"], none, true, [], none, 0⟩ "MSFT").2.timers :=
  ⟨(c8_add_new_symbol_arms_warmup ⟨["BABA"], none, true, [], none, 0⟩ "MSFT" (by simp)).1,
   (c8_add_new_symbol_arms_warmup ⟨["BABA"], none, true, [], none, 0⟩ "MSFT" (by simp)).2.1,
   (c8_add_new_symbol_arms_warmup ⟨["BABA"], none, true, [], none, 0⟩ "MSFT" (by simp)).2.2.1,
   (c8_add_new_symbol_arms_warmup ⟨["BABA"], none, true, [], none, 0⟩ "MSFT" (by simp)).2.2.2.1⟩

/-- C9: at most one retry/warm-up timer is ever outstanding per
coordinator.  Arming a new one-shot timer (for either delay) first
cancels any previously-armed timer — afterwards no live timer carries the
old handle — and the at-most-one-live-timer invariant `TimerInv` is
preserved by every operation that arms a timer: `_add_refresh_later`
itself, `add_symbol`, and a full refresh (either outcome). -/
theorem c9_single_timer_invariant (st : CoordState) (hinv : TimerInv st) :
    (∀ d, TimerInv (addRefreshLater st d)
      ∧ ∀ h t, st.refreshRemover = some h → t ∈ (addRefreshLater st d).timers → t.id ≠ h)
    ∧ (∀ s, TimerInv (add_symbol st s).2)
    ∧ (∀ fetch, TimerInv (asyncRefresh st fetch)) := by
  refine ⟨fun d => ⟨addRefreshLater_inv st d hinv, ?_⟩, fun s => ?_, fun fetch => ?_⟩
  · intro h t hh hmem
    rw [(addRefreshLater_spec st d hinv).1] at hmem
    have hid : t.id = st.nextId := by
      cases List.mem_singleton.mp hmem
      rfl
    have hlt : h < st.nextId := hinv.2.2.2 h hh
    rw [hid]
    exact Nat.ne_of_gt hlt
  · by_cases hmem : s ∈ st.symbols
    · rw [add_symbol_mem st s hmem]
      exact hinv
    · rw [add_symbol_new st s hmem]
      exact addRefreshLater_inv { st with symbols := st.symbols ++ [s] }
        DELAY_ASYNC_REQUEST_REFRESH hinv
  · unfold asyncRefresh asyncUpdateWithRetry
    cases hu : asyncUpdate fetch with
    | ok d => exact hinv
    | error e =>
        exact addRefreshLater_inv st FAILURE_ASYNC_REQUEST_REFRESH hinv

/-- Witness for C9 at a concrete timer-free coordinator state. -/
theorem c9_witness :
    TimerInv (addRefreshLater ⟨["BABA"], none, true, [], none, 0⟩ FAILURE_ASYNC_REQUEST_REFRESH)
    ∧ TimerInv (add_symbol ⟨["BABA"], none, true, [], none, 0⟩ "MSFT").2 :=
  have hinv : TimerInv ⟨["BABA"], none, true, [], none, 0⟩ := by simp [TimerInv]
  ⟨((c9_single_timer_invariant ⟨["BABA"], none, true, [], none, 0⟩ hinv).1
      FAILURE_ASYNC_REQUEST_REFRESH).1,
   (c9_single_timer_invariant ⟨["BABA"], none, true, [], none, 0⟩ hinv).2.1 "MSFT"⟩

/-- The first component of `normalizeLoop` (the contents of the `symbols`
set) does not depend on the `normalized` accumulator. -/
theorem normalizeLoop_fst_indep (rest : List ConfValue) (symbols : List String)
    (n1 n2 : List ConfValue) :
    (normalizeLoop rest symbols n1).1 = (normalizeLoop rest symbols n2).1 := by
  induction rest generalizing symbols n1 n2 with
  | nil => rfl
  | cons v vs ih =>
      cases v with
      | basic t =>
          by_cases ht : t ∈ symbols
          · simp only [normalizeLoop, if_pos ht]
            exact ih symbols n1 n2
          · simp only [normalizeLoop, if_neg ht]
            exact ih (symbols ++ [t]) _ _
      | complex t tc =>
          by_cases ht : t ∈ symbols
          · simp only [normalizeLoop, if_pos ht]
            exact ih symbols n1 n2
          · simp only [normalizeLoop, if_neg ht]
            exact ih (symbols ++ [t]) _ _

/-- One step of `normalizeLoop`, on the `symbols` component: a seen
symbol is skipped, an unseen one is appended. -/
theorem normalizeLoop_cons_fst (v : ConfValue) (vs : List ConfValue)
    (symbols : List String) (normalized : List ConfValue) :
    (normalizeLoop (v :: vs) symbols normalized).1
      = if v.symbolOf ∈ symbols
        then (normalizeLoop vs symbols normalized).1
        else (normalizeLoop vs (symbols ++ [v.symbolOf]) normalized).1 := by
  cases v with
  | basic t =>
      by_cases ht : t ∈ symbols
      · simp only [normalizeLoop, ConfValue.symbolOf, if_pos ht]
      · simp only [normalizeLoop, ConfValue.symbolOf, if_neg ht]
        exact normalizeLoop_fst_indep vs (symbols ++ [t]) _ _
  | complex t tc =>
      by_cases ht : t ∈ symbols
      · simp only [normalizeLoop, ConfValue.symbolOf, if_pos ht]
      · simp only [normalizeLoop, ConfValue.symbolOf, if_neg ht]
        exact normalizeLoop_fst_indep vs (symbols ++ [t]) _ _

/-- Membership in the `symbols` set built by `normalizeLoop`. -/
theorem normalizeLoop_mem_fst (rest : List ConfValue) (symbols : List String)
    (normalized : List ConfValue) (s : String) :
    s ∈ (normalizeLoop rest symbols normalized).1
      ↔ s ∈ symbols ∨ ∃ v ∈ rest, ConfValue.symbolOf v = s := by
  induction rest generalizing symbols normalized with
  | nil => simp [normalizeLoop]
  | cons v vs ih =>
      rw [normalizeLoop_cons_fst]
      by_cases hv : v.symbolOf ∈ symbols
      · rw [if_pos hv, ih]
        constructor
        · rintro (h | ⟨w, hw, hs⟩)
          · exact .inl h
          · exact .inr ⟨w, List.mem_cons_of_mem _ hw, hs⟩
        · rintro (h | ⟨w, hw, hs⟩)
          · exact .inl h
          · rcases List.mem_cons.mp hw with rfl | hw'
            · exact .inl (hs ▸ hv)
            · exact .inr ⟨w, hw', hs⟩
      · rw [if_neg hv, ih]
        constructor
        · rintro (h | ⟨w, hw, hs⟩)
          · rcases List.mem_append.mp h with h' | h'
            · exact .inl h'
            · exact .inr ⟨v, List.mem_cons_self v vs, (List.mem_singleton.mp h').symm⟩
          · exact .inr ⟨w, List.mem_cons_of_mem _ hw, hs⟩
        · rintro (h | ⟨w, hw, hs⟩)
          · exact .inl (List.mem_append.mpr (.inl h))
          · rcases List.mem_cons.mp hw with rfl | hw'
            · exact .inl (List.mem_append.mpr (.inr (by simp [hs])))
            · exact .inr ⟨w, hw', hs⟩

/-- The `symbols` set built by `normalizeLoop` stays duplicate-free. -/
theorem normalizeLoop_nodup_fst (rest : List ConfValue) (symbols : List String)
    (normalized : List ConfValue) (hnd : symbols.Nodup) :
    (normalizeLoop rest symbols normalized).1.Nodup := by
  induction rest generalizing symbols normalized with
  | nil => exact hnd
  | cons v vs ih =>
      rw [normalizeLoop_cons_fst]
      by_cases hv : v.symbolOf ∈ symbols
      · rw [if_pos hv]
        exact ih symbols normalized hnd
      · rw [if_neg hv]
        refine ih _ normalized ?_
        rw [List.nodup_append]
        exact ⟨hnd, List.nodup_singleton _,
          fun a ha hb => hv ((List.mem_singleton.mp hb) ▸ ha)⟩

/-- Counterexample to C7: the symbol list handed to the coordinator is
`list(symbols)` for a Python `set`, whose enumeration order is
implementation-defined (hash order, randomized per process) — it is not
first-seen insertion order.  Under the admissible enumeration that
reverses the set's insertion sequence (a permutation, as the third
conjunct certifies), the configured symbols AAA, BBB come out as
BBB, AAA, not in first-seen order. -/
theorem c7_counterexample :
    (normalize_input List.reverse [ConfValue.basic "AAA", ConfValue.basic "BBB"]).1
        = ["BBB", "AAA"]
    ∧ (["BBB", "AAA"] : List String) ≠ ["AAA", "BBB"]
    ∧ List.Perm (List.reverse ["AAA", "BBB"]) ["AAA", "BBB"] :=
  ⟨rfl, by decide, by decide⟩

/-- C7 as amended: the tracked symbol set built from the configured
symbols contains each configured identifier exactly once (duplicates
silently dropped, no duplicates in the result) but in an
implementation-defined enumeration order (any permutation of the deduped
symbols), not necessarily first-seen insertion order; and the tracked
sequence never shrinks at runtime — `add_symbol`, the only mutating
operation, either leaves it unchanged or appends one new identifier. -/
theorem c7_symbolset_unique_growth
    (setOrder : List String → List String)
    (hperm : ∀ l, List.Perm (setOrder l) l)
    (defined : List ConfValue) :
    (normalize_input setOrder defined).1.Nodup
    ∧ (∀ s, s ∈ (normalize_input setOrder defined).1
        ↔ ∃ v ∈ defined, ConfValue.symbolOf v = s)
    ∧ (∀ st sym, (add_symbol st sym).2.symbols = st.symbols
        ∨ (add_symbol st sym).2.symbols = st.symbols ++ [sym]) := by
  refine ⟨?_, ?_, ?_⟩
  · exact (hperm _).symm.nodup
      (normalizeLoop_nodup_fst defined [] [] List.nodup_nil)
  · intro s
    have h1 : (normalize_input setOrder defined).1
        = setOrder (normalizeLoop defined [] []).1 := rfl
    rw [h1, (hperm _).mem_iff, normalizeLoop_mem_fst]
    simp
  · intro st sym
    by_cases hmem : sym ∈ st.symbols
    · rw [add_symbol_mem st sym hmem]
      exact .inl rfl
    · rw [add_symbol_new st sym hmem]
      exact .inr (addRefreshLater_fields { st with symbols := st.symbols ++ [sym] }
        DELAY_ASYNC_REQUEST_REFRESH).2.2.1

/-- Witness for C7 (amended) with the identity enumeration and a
duplicated configured symbol. -/
theorem c7_witness :
    (normalize_input id [ConfValue.basic "AAA", ConfValue.basic "AAA"]).1.Nodup
    ∧ ("AAA" ∈ (normalize_input id [ConfValue.basic "AAA", ConfValue.basic "AAA"]).1
        ↔ ∃ v ∈ [ConfValue.basic "AAA", ConfValue.basic "AAA"],
            ConfValue.symbolOf v = "AAA") :=
  ⟨(c7_symbolset_unique_growth id (fun l => List.Perm.refl l)
      [ConfValue.basic "AAA", ConfValue.basic "AAA"]).1,
   (c7_symbolset_unique_growth id (fun l => List.Perm.refl l)
      [ConfValue.basic "AAA", ConfValue.basic "AAA"]).2.1 "AAA"⟩

/-- C4: for every well-formed result-list element, the record built by
`parse_symbol_data` maps every numeric field name of the closed schema to
the element's value, defaulting to 0 when absent; every string field name
to the element's value, defaulting to absent (`None`) when missing; and
carries no other keys, so unknown extra keys of the element are
ignored. -/
theorem c4_parse_symbol_data_schema (sd : List (String × Json)) (key : String) :
    (key ∈ NUMERIC_DATA_KEYS.map Prod.fst →
        lookupKey (parse_symbol_data sd) key
          = some ((lookupKey sd key).getD (Json.num 0)))
    ∧ (key ∈ STRING_DATA_KEYS →
        lookupKey (parse_symbol_data sd) key
          = some ((lookupKey sd key).getD Json.null))
    ∧ (key ∉ NUMERIC_DATA_KEYS.map Prod.fst → key ∉ STRING_DATA_KEYS →
        lookupKey (parse_symbol_data sd) key = none) := by
  have hnum : NUMERIC_DATA_KEYS.map
        (fun value => (value.1, (lookupKey sd value.1).getD (Json.num 0)))
      = (NUMERIC_DATA_KEYS.map Prod.fst).map
        (fun s => (s, (lookupKey sd s).getD (Json.num 0))) := by
    rw [List.map_map]
    rfl
  refine ⟨?_, ?_, ?_⟩
  · intro hk
    unfold parse_symbol_data
    rw [hnum, lookupKey_append, lookupKey_map_self, lookupKey_map_self, if_pos hk]
  · intro hk
    have hnot : key ∉ NUMERIC_DATA_KEYS.map Prod.fst := by
      have hc : key = "currency" ∨ key = "shortName" := by
        simpa [STRING_DATA_KEYS] using hk
      rcases hc with rfl | rfl <;> decide
    unfold parse_symbol_data
    rw [hnum, lookupKey_append, lookupKey_map_self, lookupKey_map_self,
      if_neg hnot, if_pos hk]
  · intro hk1 hk2
    unfold parse_symbol_data
    rw [hnum, lookupKey_append, lookupKey_map_self, lookupKey_map_self,
      if_neg hk1, if_neg hk2]

/-- Witness for C4: a present numeric field keeps its value, an absent
string field defaults to null, and an unknown key stays absent. -/
theorem c4_witness :
    lookupKey (parse_symbol_data [("regularMarketPrice", Json.num 5)]) "regularMarketPrice"
        = some ((lookupKey [("regularMarketPrice", Json.num 5)] "regularMarketPrice").getD
            (Json.num 0))
    ∧ lookupKey (parse_symbol_data [("regularMarketPrice", Json.num 5)]) "currency"
        = some ((lookupKey [("regularMarketPrice", Json.num 5)] "currency").getD Json.null)
    ∧ lookupKey (parse_symbol_data [("regularMarketPrice", Json.num 5)]) "unknownKey" = none :=
  ⟨(c4_parse_symbol_data_schema [("regularMarketPrice", Json.num 5)] "regularMarketPrice").1
      (by decide),
   (c4_parse_symbol_data_schema [("regularMarketPrice", Json.num 5)] "currency").2.1
      (by decide),
   (c4_parse_symbol_data_schema [("regularMarketPrice", Json.num 5)] "unknownKey").2.2
      (by decide) (by decide)⟩

/-- Evaluation of `validate` on an object payload, by the presence of the
`quoteResponse` key. -/
theorem validate_obj_eval (fields : List (String × Json)) :
    validate (some (.obj fields))
      = match lookupKey fields "quoteResponse" with
        | none =>
            .error (.updateFailed (.str "Data invalid, \x27quoteResponse\x27 not found."))
        | some qr => checkErrorPart qr := by
  cases hq : lookupKey fields "quoteResponse" with
  | none => simp [validate, pyIn, pySubscript, any_key_eq_isSome, hq]
  | some qr => simp [validate, pyIn, pySubscript, any_key_eq_isSome, hq]

/-- Evaluation of the embedded-error check on an object container, by the
presence and value of the `error` key. -/
theorem checkErrorPart_obj_eval (qf : List (String × Json)) :
    checkErrorPart (.obj qf)
      = match lookupKey qf "error" with
        | none => checkResultPart (.obj qf)
        | some e =>
            if e = Json.null then checkResultPart (.obj qf)
            else .error (.updateFailed e) := by
  cases he : lookupKey qf "error" with
  | none => simp [checkErrorPart, pyIn, pySubscript, any_key_eq_isSome, he]
  | some e =>
      by_cases hne : e = Json.null <;>
        simp [checkErrorPart, pyIn, pySubscript, any_key_eq_isSome, he, hne]

/-- Evaluation of the `result` checks on an object container, by the
presence and value of the `result` key. -/
theorem checkResultPart_obj_eval (qf : List (String × Json)) :
    checkResultPart (.obj qf)
      = match lookupKey qf "result" with
        | none => .error (.updateFailed (.str "Data invalid, no \x27result\x27 found"))
        | some r =>
            if r = Json.null
            then .error (.updateFailed (.str "Data invalid, \x27result\x27 is None"))
            else .ok r := by
  cases hres : lookupKey qf "result" with
  | none => simp [checkResultPart, pyIn, pySubscript, any_key_eq_isSome, hres]
  | some r =>
      by_cases hr : r = Json.null <;>
        simp [checkResultPart, pyIn, pySubscript, any_key_eq_isSome, hres, hr]

/-- The validation characterization on an object payload whose container
is an object and carries no live embedded error. -/
theorem validation_no_embedded_case (fields qf : List (String × Json))
    (hq : lookupKey fields "quoteResponse" = some (.obj qf))
    (hNoErr : checkErrorPart (.obj qf) = checkResultPart (.obj qf))
    (hEmbF : specEmbeddedError (some (.obj fields)) = false) :
    ((∃ m, validate (some (.obj fields)) = .error (.updateFailed m))
        ↔ specViolation (some (.obj fields)) = true)
    ∧ (specNoData (some (.obj fields)) = true →
        validate (some (.obj fields)) = .error (.updateFailed (.str "No data received")))
    ∧ (specMissingContainer (some (.obj fields)) = true →
        validate (some (.obj fields))
          = .error (.updateFailed (.str "Data invalid, \x27quoteResponse\x27 not found.")))
    ∧ (∀ fields' qf' e, (some (.obj fields) : Option Json) = some (.obj fields') →
        lookupKey fields' "quoteResponse" = some (.obj qf') →
        lookupKey qf' "error" = some e → e ≠ Json.null →
        validate (some (.obj fields)) = .error (.updateFailed e))
    ∧ (specMissingResult (some (.obj fields)) = true →
        specEmbeddedError (some (.obj fields)) = false →
        validate (some (.obj fields))
          = .error (.updateFailed (.str "Data invalid, no \x27result\x27 found")))
    ∧ (specNullResult (some (.obj fields)) = true →
        specEmbeddedError (some (.obj fields)) = false →
        validate (some (.obj fields))
          = .error (.updateFailed (.str "Data invalid, \x27result\x27 is None"))) := by
  have hval0 : validate (some (.obj fields)) = checkResultPart (.obj qf) := by
    simp only [validate_obj_eval, hq]
    exact hNoErr
  have hconj4 : ∀ fields' qf' e, (some (.obj fields) : Option Json) = some (.obj fields') →
      lookupKey fields' "quoteResponse" = some (.obj qf') →
      lookupKey qf' "error" = some e → e ≠ Json.null →
      validate (some (.obj fields)) = .error (.updateFailed e) := by
    intro fields' qf' e hp hlq he' hne'
    obtain rfl : fields' = fields := (Json.obj.inj (Option.some.inj hp)).symm
    rw [hq] at hlq
    obtain rfl : qf' = qf := (Json.obj.inj (Option.some.inj hlq)).symm
    simp only [specEmbeddedError, hq, he'] at hEmbF
    simp [hne'] at hEmbF
  cases hres : lookupKey qf "result" with
  | none =>
      have hval : validate (some (.obj fields))
          = .error (.updateFailed (.str "Data invalid, no \x27result\x27 found")) := by
        rw [hval0]
        simp only [checkResultPart_obj_eval, hres]
      refine ⟨Iff.intro (fun _ => ?_) (fun _ => ⟨_, hval⟩), ?_, ?_, hconj4, fun _ _ => hval, ?_⟩
      · simp [specViolation, specMissingResult, hq, hres]
      · intro h; simp [specNoData] at h
      · intro h; simp [specMissingContainer, hq] at h
      · intro h _; simp [specNullResult, hq, hres] at h
  | some r =>
      by_cases hr : r = Json.null
      · subst hr
        have hval : validate (some (.obj fields))
            = .error (.updateFailed (.str "Data invalid, \x27result\x27 is None")) := by
          rw [hval0]
          simp [checkResultPart_obj_eval, hres]
        refine ⟨Iff.intro (fun _ => ?_) (fun _ => ⟨_, hval⟩), ?_, ?_, hconj4, ?_, fun _ _ => hval⟩
        · simp [specViolation, specNullResult, hq, hres]
        · intro h; simp [specNoData] at h
        · intro h; simp [specMissingContainer, hq] at h
        · intro h _; simp [specMissingResult, hq, hres] at h
      · have hval : validate (some (.obj fields)) = .ok r := by
          rw [hval0]
          simp only [checkResultPart_obj_eval, hres, if_neg hr]
        have hsv : specViolation (some (.obj fields)) = false := by
          simp [specViolation, specNoData, specMissingContainer, specMissingResult,
            specNullResult, hq, hres, hr, hEmbF]
        refine ⟨Iff.intro ?_ ?_, ?_, ?_, hconj4, ?_, ?_⟩
        · rintro ⟨m, hm⟩
          rw [hval] at hm
          exact Except.noConfusion hm
        · intro h
          rw [hsv] at h
          exact Bool.noConfusion h
        · intro h; simp [specNoData] at h
        · intro h; simp [specMissingContainer, hq] at h
        · intro h _; simp [specMissingResult, hq, hres] at h
        · intro h _; simp [specNullResult, hq, hres, hr] at h

/-- Counterexample to C3: a payload that exhibits none of the five
violations (well-shaped container, no embedded error, non-null result
list) on which the refresh attempt nevertheless fails, because its
result-list element lacks the `symbol` key — refuting "fails if and only
if" one of the five violations occurs. -/
theorem c3_counterexample :
    asyncUpdate (.ok payloadNoSymbolKey) = .error (.keyError "symbol")
    ∧ specViolation payloadNoSymbolKey = false :=
  ⟨rfl, rfl⟩

/-- C3 as amended: restricted to payloads whose examined nodes have the
expected types (`wellTypedPayload`), the VALIDATION stage of a refresh
attempt raises `UpdateFailed` if and only if one of the five violations
holds (payload absent / container missing / non-null embedded error /
result key missing / result null), and each violation produces its
distinct diagnostic (the embedded-error diagnostic carrying the error
payload itself, the result diagnostics applying when no embedded error
fires first).  A payload passing validation can still make the full
attempt fail later, during result-list parsing (see the
counterexample), so the claim's "fails iff" holds for validation, not
for the attempt as a whole. -/
theorem c3_validation_characterization (p : Option Json)
    (hwt : wellTypedPayload p = true) :
    ((∃ m, validate p = .error (.updateFailed m)) ↔ specViolation p = true)
    ∧ (specNoData p = true →
        validate p = .error (.updateFailed (.str "No data received")))
    ∧ (specMissingContainer p = true →
        validate p
          = .error (.updateFailed (.str "Data invalid, \x27quoteResponse\x27 not found.")))
    ∧ (∀ fields' qf' e, p = some (.obj fields') →
        lookupKey fields' "quoteResponse" = some (.obj qf') →
        lookupKey qf' "error" = some e → e ≠ Json.null →
        validate p = .error (.updateFailed e))
    ∧ (specMissingResult p = true → specEmbeddedError p = false →
        validate p = .error (.updateFailed (.str "Data invalid, no \x27result\x27 found")))
    ∧ (specNullResult p = true → specEmbeddedError p = false →
        validate p = .error (.updateFailed (.str "Data invalid, \x27result\x27 is None"))) := by
  cases p with
  | none =>
      refine ⟨Iff.intro (fun _ => rfl) (fun _ => ⟨.str "No data received", rfl⟩),
        fun _ => rfl, ?_, ?_, ?_, ?_⟩
      · intro h; exact Bool.noConfusion h
      · intro fields' qf' e hp; exact Option.noConfusion hp
      · intro h; exact Bool.noConfusion h
      · intro h; exact Bool.noConfusion h
  | some j =>
      cases j with
      | obj fields =>
          cases hq : lookupKey fields "quoteResponse" with
          | none =>
              have hval : validate (some (.obj fields))
                  = .error (.updateFailed
                      (.str "Data invalid, \x27quoteResponse\x27 not found.")) := by
                simp only [validate_obj_eval, hq]
              refine ⟨Iff.intro (fun _ => ?_) (fun _ => ⟨_, hval⟩), ?_, fun _ => hval,
                ?_, ?_, ?_⟩
              · simp [specViolation, specMissingContainer, hq]
              · intro h; simp [specNoData] at h
              · intro fields' qf' e hp hlq he hne
                obtain rfl : fields' = fields := (Json.obj.inj (Option.some.inj hp)).symm
                rw [hq] at hlq
                exact Option.noConfusion hlq
              · intro h _; simp [specMissingResult, hq] at h
              · intro h _; simp [specNullResult, hq] at h
          | some qr =>
              cases qr with
              | obj qf =>
                  cases he : lookupKey qf "error" with
                  | none =>
                      exact validation_no_embedded_case fields qf hq
                        (by simp only [checkErrorPart_obj_eval, he])
                        (by simp [specEmbeddedError, hq, he])
                  | some e =>
                      by_cases hne : e = Json.null
                      · subst hne
                        exact validation_no_embedded_case fields qf hq
                          (by simp [checkErrorPart_obj_eval, he])
                          (by simp [specEmbeddedError, hq, he])
                      · have hval : validate (some (.obj fields))
                            = .error (.updateFailed e) := by
                          simp only [validate_obj_eval, hq, checkErrorPart_obj_eval, he,
                            if_neg hne]
                        refine ⟨Iff.intro (fun _ => ?_) (fun _ => ⟨e, hval⟩),
                          ?_, ?_, ?_, ?_, ?_⟩
                        · simp [specViolation, specEmbeddedError, hq, he, hne]
                        · intro h; simp [specNoData] at h
                        · intro h; simp [specMissingContainer, hq] at h
                        · intro fields' qf' e' hp hlq he' hne'
                          obtain rfl : fields' = fields :=
                            (Json.obj.inj (Option.some.inj hp)).symm
                          rw [hq] at hlq
                          obtain rfl : qf' = qf :=
                            (Json.obj.inj (Option.some.inj hlq)).symm
                          rw [he] at he'
                          obtain rfl : e' = e := (Option.some.inj he').symm
                          exact hval
                        · intro _ hEmbF; simp [specEmbeddedError, hq, he, hne] at hEmbF
                        · intro _ hEmbF; simp [specEmbeddedError, hq, he, hne] at hEmbF
              | null => simp [wellTypedPayload, hq] at hwt
              | bool b => simp [wellTypedPayload, hq] at hwt
              | num q => simp [wellTypedPayload, hq] at hwt
              | str s => simp [wellTypedPayload, hq] at hwt
              | arr elems => simp [wellTypedPayload, hq] at hwt
      | null => simp [wellTypedPayload] at hwt
      | bool b => simp [wellTypedPayload] at hwt
      | num q => simp [wellTypedPayload] at hwt
      | str s => simp [wellTypedPayload] at hwt
      | arr elems => simp [wellTypedPayload] at hwt

/-- Witness for C3 (amended) at the absent payload. -/
theorem c3_witness :
    ((∃ m, validate none = .error (.updateFailed m)) ↔ specViolation none = true)
    ∧ validate none = .error (.updateFailed (.str "No data received")) :=
  ⟨(c3_validation_characterization none rfl).1,
   (c3_validation_characterization none rfl).2.1 rfl⟩

end YahooFinance
